import Mathlib

/-!
# INA236 current/voltage/power monitor: register model

A shallow embedding of `ina236.h`: the enumerations, the bit-field structs of
the `reg` union and the scale constants.  A register is a 16-bit word held as a
natural number; a bit-field struct is the list of its members with their
widths, in declaration order, and members are allocated from the least
significant bit of the `uint16_t` storage unit upwards.
-/

namespace INA236

/-! ## Enumerations -/

/-- The enum `ADCRange` of the header. -/
inductive ADCRange where
  | RANGE_81_92mV
  | RANGE_20_48mV
  deriving DecidableEq, Repr

/-- The enum `NumSamples` of the header. -/
inductive NumSamples where
  | NADC_1
  | NADC_4
  | NADC_16
  | NADC_64
  | NADC_128
  | NADC_256
  | NADC_512
  | NADC_1024
  deriving DecidableEq, Repr

/-- The enum `ConvTime` of the header. -/
inductive ConvTime where
  | CTIME_140us
  | CTIME_204us
  | CTIME_332us
  | CTIME_588us
  | CTIME_1100us
  | CTIME_2116us
  | CTIME_4156us
  | CTIME_8244us
  deriving DecidableEq, Repr

/-- The enum `Mode` of the header (the spelling `SUNT` is the header's). -/
inductive Mode where
  | MODE_SHUTDOWN
  | MODE_SINGLESHOT_SUNT
  | MODE_SINGLESHOT_BUS
  | MODE_SINGLESHOT_BOTH_SHUNT_BUS
  | MODE_SHUTDOWN2
  | MODE_CONTINUOUS_SHUNT
  | MODE_CONTINUOUS_BUS
  | MODE_CONTINUOUS_BOTH_SHUNT_BUS
  deriving DecidableEq, Repr

/-- Integer value of an `ADCRange` enumerator (numbered from 0 in declaration order). -/
def ADCRange.toNat : ADCRange → Nat
  | .RANGE_81_92mV => 0
  | .RANGE_20_48mV => 1

/-- Integer value of a `NumSamples` enumerator. -/
def NumSamples.toNat : NumSamples → Nat
  | .NADC_1 => 0
  | .NADC_4 => 1
  | .NADC_16 => 2
  | .NADC_64 => 3
  | .NADC_128 => 4
  | .NADC_256 => 5
  | .NADC_512 => 6
  | .NADC_1024 => 7

/-- Integer value of a `ConvTime` enumerator. -/
def ConvTime.toNat : ConvTime → Nat
  | .CTIME_140us => 0
  | .CTIME_204us => 1
  | .CTIME_332us => 2
  | .CTIME_588us => 3
  | .CTIME_1100us => 4
  | .CTIME_2116us => 5
  | .CTIME_4156us => 6
  | .CTIME_8244us => 7

/-- Integer value of a `Mode` enumerator. -/
def Mode.toNat : Mode → Nat
  | .MODE_SHUTDOWN => 0
  | .MODE_SINGLESHOT_SUNT => 1
  | .MODE_SINGLESHOT_BUS => 2
  | .MODE_SINGLESHOT_BOTH_SHUNT_BUS => 3
  | .MODE_SHUTDOWN2 => 4
  | .MODE_CONTINUOUS_SHUNT => 5
  | .MODE_CONTINUOUS_BUS => 6
  | .MODE_CONTINUOUS_BOTH_SHUNT_BUS => 7

/-- The enumerator of `ADCRange` with a given integer value, if there is one. -/
def ADCRange.ofNat? : Nat → Option ADCRange
  | 0 => some .RANGE_81_92mV
  | 1 => some .RANGE_20_48mV
  | _ => none

/-- The enumerator of `NumSamples` with a given integer value, if there is one. -/
def NumSamples.ofNat? : Nat → Option NumSamples
  | 0 => some .NADC_1
  | 1 => some .NADC_4
  | 2 => some .NADC_16
  | 3 => some .NADC_64
  | 4 => some .NADC_128
  | 5 => some .NADC_256
  | 6 => some .NADC_512
  | 7 => some .NADC_1024
  | _ => none

/-- The enumerator of `ConvTime` with a given integer value, if there is one. -/
def ConvTime.ofNat? : Nat → Option ConvTime
  | 0 => some .CTIME_140us
  | 1 => some .CTIME_204us
  | 2 => some .CTIME_332us
  | 3 => some .CTIME_588us
  | 4 => some .CTIME_1100us
  | 5 => some .CTIME_2116us
  | 6 => some .CTIME_4156us
  | 7 => some .CTIME_8244us
  | _ => none

/-- The enumerator of `Mode` with a given integer value, if there is one. -/
def Mode.ofNat? : Nat → Option Mode
  | 0 => some .MODE_SHUTDOWN
  | 1 => some .MODE_SINGLESHOT_SUNT
  | 2 => some .MODE_SINGLESHOT_BUS
  | 3 => some .MODE_SINGLESHOT_BOTH_SHUNT_BUS
  | 4 => some .MODE_SHUTDOWN2
  | 5 => some .MODE_CONTINUOUS_SHUNT
  | 6 => some .MODE_CONTINUOUS_BUS
  | 7 => some .MODE_CONTINUOUS_BOTH_SHUNT_BUS
  | _ => none

/-! ## Bit-field structs -/

/-- A bit-field struct declaration: member and width, in declaration order. -/
abbrev Layout (F : Type) := List (F × Nat)

/-- Bit position of the lowest bit of member `f`: the sum of the widths of the
members declared before it. -/
def bitOffset {F : Type} [DecidableEq F] : Layout F → F → Nat
  | [], _ => 0
  | (g, n) :: rest, f => if g = f then 0 else n + bitOffset rest f

/-- Declared width of member `f`. -/
def bitWidth {F : Type} [DecidableEq F] : Layout F → F → Nat
  | [], _ => 0
  | (g, n) :: rest, f => if g = f then n else bitWidth rest f

/-- Reading member `f` of the struct overlaid on the word `w`. -/
def readField {F : Type} [DecidableEq F] (L : Layout F) (f : F) (w : Nat) : Nat :=
  w / 2 ^ bitOffset L f % 2 ^ bitWidth L f

/-- Assigning `v` to member `f` of the struct overlaid on the word `w`: the
value is reduced modulo `2 ^ width`, the bits of the other members are kept. -/
def writeField {F : Type} [DecidableEq F] (L : Layout F) (f : F) (w v : Nat) : Nat :=
  w % 2 ^ bitOffset L f
    + v % 2 ^ bitWidth L f * 2 ^ bitOffset L f
    + w / 2 ^ (bitOffset L f + bitWidth L f) * 2 ^ (bitOffset L f + bitWidth L f)

/-- Members of `struct _config_register` (the spelling `ACDRANGE` is the header's). -/
inductive config_member where
  | MODE
  | VSHCT
  | VBUSCT
  | AVG
  | ACDRANGE
  | RESERVED
  | RST
  deriving DecidableEq, Repr

/-- The declaration `uint16_t MODE:3, VSHCT:3, VBUSCT:3, AVG:3, ACDRANGE:1, RESERVED:2, RST:1`. -/
def config_register : Layout config_member :=
  [(.MODE, 3), (.VSHCT, 3), (.VBUSCT, 3), (.AVG, 3), (.ACDRANGE, 1), (.RESERVED, 2), (.RST, 1)]

/-- Members of `struct _mask_enable_register`. -/
inductive mask_enable_member where
  | LEN
  | APOL
  | OVF
  | CVRF
  | AFF
  | MemError
  | RESERVED
  | CNVR
  | POL
  | BUL
  | BOL
  | SUL
  | SOL
  deriving DecidableEq, Repr

/-- The declaration `uint16_t LEN:1, APOL:1, OVF:1, CVRF:1, AFF:1, MemError:1,
RESERVED:4, CNVR:1, POL:1, BUL:1, BOL:1, SUL:1, SOL:1`. -/
def mask_enable_register : Layout mask_enable_member :=
  [(.LEN, 1), (.APOL, 1), (.OVF, 1), (.CVRF, 1), (.AFF, 1), (.MemError, 1), (.RESERVED, 4),
   (.CNVR, 1), (.POL, 1), (.BUL, 1), (.BOL, 1), (.SUL, 1), (.SOL, 1)]

/-- Members of `struct _calibration_register`. -/
inductive calibration_member where
  | SHUNT_CAL
  | RESERVED
  deriving DecidableEq, Repr

/-- The declaration `uint16_t SHUNT_CAL:15, RESERVED:1`. -/
def calibration_register : Layout calibration_member :=
  [(.SHUNT_CAL, 15), (.RESERVED, 1)]

/-! ## The configuration word -/

/-- The configuration word with the five settings stored in their members of
`config_register`, starting from the all-zero word (`RESERVED` and `RST` zero). -/
def encodeConfigWord (range : ADCRange) (numSamples : NumSamples)
    (vbusTime vshuntTime : ConvTime) (mode : Mode) : Nat :=
  let w1 := writeField config_register .ACDRANGE 0 range.toNat
  let w2 := writeField config_register .AVG w1 numSamples.toNat
  let w3 := writeField config_register .VBUSCT w2 vbusTime.toNat
  let w4 := writeField config_register .VSHCT w3 vshuntTime.toNat
  writeField config_register .MODE w4 mode.toNat

/-- Reading the five settings back from a configuration word: each member is
read and converted to its enum; `none` if a member value is no enumerator. -/
def decodeConfigWord (w : Nat) :
    Option (ADCRange × NumSamples × ConvTime × ConvTime × Mode) :=
  match ADCRange.ofNat? (readField config_register .ACDRANGE w),
        NumSamples.ofNat? (readField config_register .AVG w),
        ConvTime.ofNat? (readField config_register .VBUSCT w),
        ConvTime.ofNat? (readField config_register .VSHCT w),
        Mode.ofNat? (readField config_register .MODE w) with
  | some r, some a, some vb, some vs, some m => some (r, a, vb, vs, m)
  | _, _, _, _, _ => none

/-! ## Whole-word registers -/

/-- Value of an `int16_t` member (`VSHUNT`, `CURRENT`, `LIMIT`) overlaid on the
word `w`: the two's-complement reading of its 16 bits. -/
def int16_of_word (w : Nat) : Int :=
  if w % 65536 < 32768 then (w % 65536 : Nat) else (w % 65536 : Nat) - 65536

/-- The 16-bit word holding the `int16_t` value `v`. -/
def word_of_int16 (v : Int) : Nat := (v % 65536).toNat

/-- Value of a `uint16_t` member (`POWER`, `MANUFACTURE_ID`) overlaid on the word `w`. -/
def uint16_of_word (w : Nat) : Nat := w % 65536

/-! ## Scale constants -/

/-- The macro `MAXIMUM_EXPECTED_CURRENT`, in amperes. -/
def MAXIMUM_EXPECTED_CURRENT : ℚ := 5.0

/-- The macro `CURRENT_LSB_MINIMUM`: `MAXIMUM_EXPECTED_CURRENT / ((float)(1<<15))`. -/
def CURRENT_LSB_MINIMUM : ℚ := MAXIMUM_EXPECTED_CURRENT / ((1 <<< 15 : Nat) : ℚ)

/-- The macro `CURRENT_LSB`, in amperes: `CURRENT_LSB_MINIMUM * 1.0`. -/
def CURRENT_LSB : ℚ := CURRENT_LSB_MINIMUM * 1.0

/-- The macro `BUS_VOLTAGE_LSB`, in volts. -/
def BUS_VOLTAGE_LSB : ℚ := 0.0016

/-- The macro `SHUNT_VOLTAGE_81_92mv_LSB`, in millivolts. -/
def SHUNT_VOLTAGE_81_92mv_LSB : ℚ := 0.0025

/-- The macro `SHUNT_VOLTAGE_20_48mv_LSB`, in millivolts. -/
def SHUNT_VOLTAGE_20_48mv_LSB : ℚ := 0.000625

/-- The macro `POWER_LSB`, in watts: `CURRENT_LSB*32`. -/
def POWER_LSB : ℚ := CURRENT_LSB * 32

/-! ## Unit scaling -/

/-- Modelled from the spec: the shunt-voltage conversion of the read path (the C
file defining `INA236_readAll` is not part of the sources): `raw_code * 0.0025`
mV if the ADC range is the wide (81.92 mV) span, else `raw_code * 0.000625` mV. -/
def shuntVoltage (range : ADCRange) (raw_code : Int) : ℚ :=
  match range with
  | .RANGE_81_92mV => raw_code * SHUNT_VOLTAGE_81_92mv_LSB
  | .RANGE_20_48mV => raw_code * SHUNT_VOLTAGE_20_48mv_LSB

/-- Modelled from the spec: the shunt voltage decoded from the shunt-voltage
register word, the raw code being the `int16_t` member `VSHUNT` (the C file
defining `INA236_readAll` is not part of the sources). -/
def readShuntVoltage (range : ADCRange) (w : Nat) : ℚ :=
  shuntVoltage range (int16_of_word w)

/-- Modelled from the spec: the current conversion of the read path (the C file
defining `INA236_readAll` is not part of the sources): `raw_code * currentLSB`
amperes. -/
def current (raw_code : Int) : ℚ := raw_code * CURRENT_LSB

/-- Modelled from the spec: the current decoded from the current register word,
the raw code being the `int16_t` member `CURRENT` (the C file defining
`INA236_readAll` is not part of the sources). -/
def readCurrent (w : Nat) : ℚ := current (int16_of_word w)

/-- Modelled from the spec: the power conversion of the read path (the C file
defining `INA236_readAll` is not part of the sources):
`raw_code * currentLSB * 32` watts. -/
def power (raw_code : Nat) : ℚ := raw_code * CURRENT_LSB * 32

/-- Modelled from the spec: the power decoded from the power register word, the
raw code being the `uint16_t` member `POWER` (the C file defining
`INA236_readAll` is not part of the sources). -/
def readPower (w : Nat) : ℚ := power (uint16_of_word w)

/-- Modelled from the spec: the calibration value computed at initialisation
(the C file defining `INA236_init` is not part of the sources):
`0.00512 / (current_LSB * shunt_resistor)`, truncated to an integer. -/
def calibration (shuntResistor : ℚ) : Int :=
  ⌊(0.00512 : ℚ) / (CURRENT_LSB * shuntResistor)⌋

/-- Modelled from the spec: the bus-voltage conversion of the read path (the C
file defining `INA236_readAll` is not part of the sources): `raw_code * 0.0016`
volts. -/
def busVoltage (raw_code : Nat) : ℚ := raw_code * BUS_VOLTAGE_LSB

/-! ## Further enumerations, register addresses and layouts -/

/-- The enum `AlertOn` of the header. -/
inductive AlertOn where
  | ALERT_NONE
  | ALERT_SHUNT_OVER_LIMIT
  | ALERT_SHUNT_UNDER_LIMIT
  | ALERT_BUS_OVER_LIMIT
  | ALERT_BUS_UNDER_LIMIT
  | ALERT_POWER_OVER_LIMIT
  deriving DecidableEq, Repr

/-- The enumerators of `Mode` in declaration order. -/
def Mode.all : List Mode :=
  [.MODE_SHUTDOWN, .MODE_SINGLESHOT_SUNT, .MODE_SINGLESHOT_BUS, .MODE_SINGLESHOT_BOTH_SHUNT_BUS,
   .MODE_SHUTDOWN2, .MODE_CONTINUOUS_SHUNT, .MODE_CONTINUOUS_BUS,
   .MODE_CONTINUOUS_BOTH_SHUNT_BUS]

/-- The modes whose enumerator is named `MODE_SHUTDOWN...`. -/
def Mode.isShutdown : Mode → Bool
  | .MODE_SHUTDOWN => true
  | .MODE_SHUTDOWN2 => true
  | _ => false

/-- The modes whose enumerator names the shunt (`..._SUNT`, `..._SHUNT`, `..._BOTH_SHUNT_BUS`). -/
def Mode.measuresShunt : Mode → Bool
  | .MODE_SINGLESHOT_SUNT => true
  | .MODE_SINGLESHOT_BOTH_SHUNT_BUS => true
  | .MODE_CONTINUOUS_SHUNT => true
  | .MODE_CONTINUOUS_BOTH_SHUNT_BUS => true
  | _ => false

/-- The modes whose enumerator names the bus (`..._BUS`, `..._BOTH_SHUNT_BUS`). -/
def Mode.measuresBus : Mode → Bool
  | .MODE_SINGLESHOT_BUS => true
  | .MODE_SINGLESHOT_BOTH_SHUNT_BUS => true
  | .MODE_CONTINUOUS_BUS => true
  | .MODE_CONTINUOUS_BOTH_SHUNT_BUS => true
  | _ => false

/-- The modes whose enumerator is named `MODE_CONTINUOUS_...`. -/
def Mode.isContinuous : Mode → Bool
  | .MODE_CONTINUOUS_SHUNT => true
  | .MODE_CONTINUOUS_BUS => true
  | .MODE_CONTINUOUS_BOTH_SHUNT_BUS => true
  | _ => false

/-- The modes whose enumerator is named `MODE_SINGLESHOT_...`. -/
def Mode.isSingleShot : Mode → Bool
  | .MODE_SINGLESHOT_SUNT => true
  | .MODE_SINGLESHOT_BUS => true
  | .MODE_SINGLESHOT_BOTH_SHUNT_BUS => true
  | _ => false

/-- The macro `CONFIGURATION_REGISTER`. -/
def CONFIGURATION_REGISTER : Nat := 0x00

/-- The macro `SHUNT_VOLTAGE_REGISTER`. -/
def SHUNT_VOLTAGE_REGISTER : Nat := 0x01

/-- The macro `BUS_VOLTAGE_REGISTER`. -/
def BUS_VOLTAGE_REGISTER : Nat := 0x02

/-- The macro `POWER_REGISTER`. -/
def POWER_REGISTER : Nat := 0x03

/-- The macro `CURRENT_REGISTER`. -/
def CURRENT_REGISTER : Nat := 0x04

/-- The macro `CALIBRATION_REGISTER`. -/
def CALIBRATION_REGISTER : Nat := 0x05

/-- The macro `MASK_ENABLE_REGISTER`. -/
def MASK_ENABLE_REGISTER : Nat := 0x06

/-- The macro `ALERT_LIMIT_REGISTER`. -/
def ALERT_LIMIT_REGISTER : Nat := 0x07

/-- The macro `MANUFACTURERID_REGISTER`. -/
def MANUFACTURERID_REGISTER : Nat := 0x3E

/-- The macro `DEVICEID_REGISTER`. -/
def DEVICEID_REGISTER : Nat := 0x3F

/-- The ten register address macros, in the order of the header. -/
def registerAddresses : List Nat :=
  [CONFIGURATION_REGISTER, SHUNT_VOLTAGE_REGISTER, BUS_VOLTAGE_REGISTER, POWER_REGISTER,
   CURRENT_REGISTER, CALIBRATION_REGISTER, MASK_ENABLE_REGISTER, ALERT_LIMIT_REGISTER,
   MANUFACTURERID_REGISTER, DEVICEID_REGISTER]

/-- Members of `struct _bus_voltage_register`. -/
inductive bus_voltage_member where
  | VBUS
  | RESERVED
  deriving DecidableEq, Repr

/-- The declaration `uint16_t VBUS:15, RESERVED:1`. -/
def bus_voltage_register : Layout bus_voltage_member :=
  [(.VBUS, 15), (.RESERVED, 1)]

/-- Members of `struct _devide_id_register` (the spelling `devide` is the header's). -/
inductive devide_id_member where
  | RESERVED
  | DIEID
  deriving DecidableEq, Repr

/-- The declaration `uint16_t RESERVED:4, DIEID:12`. -/
def devide_id_register : Layout devide_id_member :=
  [(.RESERVED, 4), (.DIEID, 12)]

/-- Sum of the declared widths of a bit-field struct. -/
def totalWidth {F : Type} (L : Layout F) : Nat := (L.map Prod.snd).sum

/-- The members of the struct whose bit range holds bit `i`. -/
def bitOwners {F : Type} [DecidableEq F] (L : Layout F) (i : Nat) : List F :=
  (L.filter fun p => bitOffset L p.1 ≤ i ∧ i < bitOffset L p.1 + bitWidth L p.1).map Prod.fst

/-- Extracting every member from the word `w` and storing each, in declaration
order, into the struct overlaid on a zeroed word. -/
def repack {F : Type} [DecidableEq F] (L : Layout F) (w : Nat) : Nat :=
  L.foldl (fun acc p => writeField L p.1 acc (readField L p.1 w)) 0

/-- Modelled from the spec: the bus voltage decoded from the bus-voltage register
word, the raw code being the 15-bit member `VBUS` (the C file defining
`INA236_readAll` is not part of the sources). -/
def readBusVoltage (w : Nat) : ℚ := busVoltage (readField bus_voltage_register .VBUS w)

/-- Modelled from the spec: the scale applied to an alert limit by
`INA236_alert_init` (declared in the header, its body is not part of the
sources): the shunt-voltage LSB of the configured range for shunt alerts, the
bus-voltage LSB for bus alerts, the power LSB for power alerts; `ALERT_NONE`
has no limit to convert. -/
def alertLimitLSB (alert_on : AlertOn) (range : ADCRange) : Option ℚ :=
  match alert_on with
  | .ALERT_NONE => none
  | .ALERT_SHUNT_OVER_LIMIT | .ALERT_SHUNT_UNDER_LIMIT =>
    match range with
    | .RANGE_81_92mV => some SHUNT_VOLTAGE_81_92mv_LSB
    | .RANGE_20_48mV => some SHUNT_VOLTAGE_20_48mv_LSB
  | .ALERT_BUS_OVER_LIMIT | .ALERT_BUS_UNDER_LIMIT => some BUS_VOLTAGE_LSB
  | .ALERT_POWER_OVER_LIMIT => some POWER_LSB

theorem adcRange_toNat_lt (r : ADCRange) : r.toNat < 2 := by
  cases r <;> decide

theorem numSamples_toNat_lt (a : NumSamples) : a.toNat < 8 := by
  cases a <;> decide

theorem convTime_toNat_lt (t : ConvTime) : t.toNat < 8 := by
  cases t <;> decide

theorem mode_toNat_lt (m : Mode) : m.toNat < 8 := by
  cases m <;> decide

theorem adcRange_ofNat_toNat (r : ADCRange) : ADCRange.ofNat? r.toNat = some r := by
  cases r <;> rfl

theorem numSamples_ofNat_toNat (a : NumSamples) : NumSamples.ofNat? a.toNat = some a := by
  cases a <;> rfl

theorem convTime_ofNat_toNat (t : ConvTime) : ConvTime.ofNat? t.toNat = some t := by
  cases t <;> rfl

theorem mode_ofNat_toNat (m : Mode) : Mode.ofNat? m.toNat = some m := by
  cases m <;> rfl

theorem adcRange_exists_of_lt (k : Nat) (hk : k < 2) :
    ∃ r : ADCRange, ADCRange.ofNat? k = some r ∧ r.toNat = k := by
  interval_cases k <;> exact ⟨_, rfl, rfl⟩

theorem numSamples_exists_of_lt (k : Nat) (hk : k < 8) :
    ∃ a : NumSamples, NumSamples.ofNat? k = some a ∧ a.toNat = k := by
  interval_cases k <;> exact ⟨_, rfl, rfl⟩

theorem convTime_exists_of_lt (k : Nat) (hk : k < 8) :
    ∃ t : ConvTime, ConvTime.ofNat? k = some t ∧ t.toNat = k := by
  interval_cases k <;> exact ⟨_, rfl, rfl⟩

theorem mode_exists_of_lt (k : Nat) (hk : k < 8) :
    ∃ m : Mode, Mode.ofNat? k = some m ∧ m.toNat = k := by
  interval_cases k <;> exact ⟨_, rfl, rfl⟩

/-- Two numbers with the same residue modulo `2 ^ k` have the same bits below `k`. -/
theorem testBit_eq_of_mod_eq {a b k i : Nat} (h : a % 2 ^ k = b % 2 ^ k) (hi : i < k) :
    a.testBit i = b.testBit i := by
  have ha := Nat.testBit_mod_two_pow a k i
  have hb := Nat.testBit_mod_two_pow b k i
  rw [h] at ha
  simp only [hi, decide_True, Bool.true_and] at ha hb
  rw [← ha, hb]

/-- Two numbers with the same quotient by `2 ^ k` have the same bits from `k` upwards. -/
theorem testBit_eq_of_div_eq {a b k i : Nat} (h : a / 2 ^ k = b / 2 ^ k) (hi : k ≤ i) :
    a.testBit i = b.testBit i := by
  obtain ⟨j, rfl⟩ := Nat.exists_eq_add_of_le hi
  rw [← Nat.testBit_shiftRight, ← Nat.testBit_shiftRight, Nat.shiftRight_eq_div_pow,
    Nat.shiftRight_eq_div_pow, h]

/-- Numbers that agree on every bit below `k` have the same residue modulo `2 ^ k`. -/
theorem mod_eq_of_testBit_eq {a b k : Nat} (h : ∀ i, i < k → a.testBit i = b.testBit i) :
    a % 2 ^ k = b % 2 ^ k := by
  apply Nat.eq_of_testBit_eq
  intro i
  rw [Nat.testBit_mod_two_pow, Nat.testBit_mod_two_pow]
  by_cases hi : i < k
  · simp [hi, h i hi]
  · simp [hi]

/-- Storing a field keeps the part of the word below the field. -/
theorem store_mod (A B w v : Nat) :
    (w % A + v % B * A + w / (A * B) * (A * B)) % A = w % A := by
  have h : w % A + v % B * A + w / (A * B) * (A * B)
      = w % A + A * (v % B + w / (A * B) * B) := by ring
  rw [h, Nat.add_mul_mod_self_left, Nat.mod_mod]

/-- The word above the low end of a stored field. -/
theorem store_div_low (A B w v : Nat) (hA : 0 < A) :
    (w % A + v % B * A + w / (A * B) * (A * B)) / A = v % B + w / (A * B) * B := by
  have h : w % A + v % B * A + w / (A * B) * (A * B)
      = w % A + A * (v % B + w / (A * B) * B) := by ring
  rw [h, Nat.add_mul_div_left _ _ hA, Nat.div_eq_of_lt (Nat.mod_lt _ hA), Nat.zero_add]

/-- Storing a field keeps the part of the word above the field. -/
theorem store_div_high (A B w v : Nat) (hA : 0 < A) (hB : 0 < B) :
    (w % A + v % B * A + w / (A * B) * (A * B)) / (A * B) = w / (A * B) := by
  rw [← Nat.div_div_eq_div_mul, store_div_low A B w v hA, Nat.add_mul_div_right _ _ hB,
    Nat.div_eq_of_lt (Nat.mod_lt _ hB), Nat.zero_add]

/-- Assigning a member leaves every bit outside the member unchanged. -/
theorem writeField_testBit {F : Type} [DecidableEq F] (L : Layout F) (f : F) (w v i : Nat)
    (h : i < bitOffset L f ∨ bitOffset L f + bitWidth L f ≤ i) :
    (writeField L f w v).testBit i = w.testBit i := by
  unfold writeField
  rw [Nat.pow_add]
  rcases h with h | h
  · exact testBit_eq_of_mod_eq (store_mod _ _ w v) h
  · refine testBit_eq_of_div_eq (k := bitOffset L f + bitWidth L f) ?_ h
    rw [Nat.pow_add]
    exact store_div_high _ _ w v (Nat.two_pow_pos _) (Nat.two_pow_pos _)

/-- A member reads back as the assigned value reduced modulo `2 ^ width`. -/
theorem readField_writeField {F : Type} [DecidableEq F] (L : Layout F) (f : F) (w v : Nat) :
    readField L f (writeField L f w v) = v % 2 ^ bitWidth L f := by
  unfold readField writeField
  rw [Nat.pow_add, store_div_low _ _ w v (Nat.two_pow_pos _), Nat.add_mul_mod_self_right,
    Nat.mod_mod]

/-- The members of `config_register` read from a word, by position. -/
theorem readField_config (w : Nat) :
    readField config_register .MODE w = w % 8
    ∧ readField config_register .VSHCT w = w / 8 % 8
    ∧ readField config_register .VBUSCT w = w / 64 % 8
    ∧ readField config_register .AVG w = w / 512 % 8
    ∧ readField config_register .ACDRANGE w = w / 4096 % 2
    ∧ readField config_register .RESERVED w = w / 8192 % 4
    ∧ readField config_register .RST w = w / 32768 % 2 := by
  simp [readField, bitOffset, bitWidth, config_register]

/-- The configuration word as a sum of shifted enumerator values. -/
theorem encodeConfigWord_eq (r : ADCRange) (a : NumSamples) (vb vs : ConvTime) (m : Mode) :
    encodeConfigWord r a vb vs m
      = m.toNat + 8 * vs.toNat + 64 * vb.toNat + 512 * a.toNat + 4096 * r.toNat := by
  have hr := adcRange_toNat_lt r
  have ha := numSamples_toNat_lt a
  have hvb := convTime_toNat_lt vb
  have hvs := convTime_toNat_lt vs
  have hm := mode_toNat_lt m
  simp only [encodeConfigWord, writeField, bitOffset, bitWidth, config_register]
  simp
  omega

/-- Decoding a word whose members are the values of five enumerators. -/
theorem decodeConfigWord_of_fields (w : Nat) (r : ADCRange) (a : NumSamples)
    (vb vs : ConvTime) (m : Mode)
    (hm : w % 8 = m.toNat) (hvs : w / 8 % 8 = vs.toNat) (hvb : w / 64 % 8 = vb.toNat)
    (ha : w / 512 % 8 = a.toNat) (hr : w / 4096 % 2 = r.toNat) :
    decodeConfigWord w = some (r, a, vb, vs, m) := by
  obtain ⟨h1, h2, h3, h4, h5, -, -⟩ := readField_config w
  simp only [decodeConfigWord, h1, h2, h3, h4, h5, hm, hvs, hvb, ha, hr,
    adcRange_ofNat_toNat, numSamples_ofNat_toNat, convTime_ofNat_toNat, mode_ofNat_toNat]

/-- Decoding after encoding, in the form shared by the results below. -/
theorem decode_encode_fields (r : ADCRange) (a : NumSamples) (vb vs : ConvTime) (m : Mode) :
    decodeConfigWord (encodeConfigWord r a vb vs m) = some (r, a, vb, vs, m) := by
  have hr := adcRange_toNat_lt r
  have ha := numSamples_toNat_lt a
  have hvb := convTime_toNat_lt vb
  have hvs := convTime_toNat_lt vs
  have hm := mode_toNat_lt m
  have hw := encodeConfigWord_eq r a vb vs m
  exact decodeConfigWord_of_fields _ r a vb vs m (by omega) (by omega) (by omega) (by omega)
    (by omega)

/-- The `int16_t` reading of the word that holds a 16-bit signed value is that value. -/
theorem int16_of_word_of_int16 (c : Int) (hlo : -32768 ≤ c) (hhi : c ≤ 32767) :
    int16_of_word (word_of_int16 c) = c := by
  unfold int16_of_word word_of_int16
  split <;> omega

/-- The value of the macro `CURRENT_LSB` as a fraction. -/
theorem CURRENT_LSB_eq : CURRENT_LSB = 5 / 32768 := by
  norm_num [CURRENT_LSB, CURRENT_LSB_MINIMUM, MAXIMUM_EXPECTED_CURRENT, Nat.shiftLeft_eq]

/-- The calibration quotient is below `2 ^ 15` exactly above 1.024 milliohm. -/
theorem calibration_le_iff (R : ℚ) (hR : 0 < R) :
    calibration R ≤ 32767 ↔ (0.001024 : ℚ) < R := by
  have h1 : calibration R ≤ 32767 ↔ calibration R < 32768 := by omega
  rw [h1, calibration, Int.floor_lt, CURRENT_LSB_eq, div_lt_iff₀ (by positivity)]
  constructor <;> intro h <;> norm_num at h ⊢ <;> linarith

/-- The calibration quotient of a positive resistance is not negative. -/
theorem calibration_nonneg (R : ℚ) (hR : 0 < R) : 0 ≤ calibration R := by
  rw [calibration, CURRENT_LSB_eq]
  exact Int.floor_nonneg.mpr (by positivity)

/-! ## The configuration word: packing and decoding -/

/-- C1: the configuration word built from a range, a sample count, two
conversion times and a mode holds the mode in bits 2:0, the shunt conversion
time in bits 5:3, the bus conversion time in bits 8:6, the sample count in bits
11:9, the range in bit 12 and zero in bits 13, 14 and 15; it is the sum
`m + 8*vs + 64*vb + 512*a + 4096*r`. -/
theorem encodeConfigWord_layout (r : ADCRange) (a : NumSamples) (vb vs : ConvTime) (m : Mode) :
    encodeConfigWord r a vb vs m % 8 = m.toNat
    ∧ encodeConfigWord r a vb vs m / 8 % 8 = vs.toNat
    ∧ encodeConfigWord r a vb vs m / 64 % 8 = vb.toNat
    ∧ encodeConfigWord r a vb vs m / 512 % 8 = a.toNat
    ∧ encodeConfigWord r a vb vs m / 4096 % 2 = r.toNat
    ∧ (encodeConfigWord r a vb vs m).testBit 13 = false
    ∧ (encodeConfigWord r a vb vs m).testBit 14 = false
    ∧ (encodeConfigWord r a vb vs m).testBit 15 = false
    ∧ encodeConfigWord r a vb vs m
        = m.toNat + 8 * vs.toNat + 64 * vb.toNat + 512 * a.toNat + 4096 * r.toNat := by
  have hr := adcRange_toNat_lt r
  have ha := numSamples_toNat_lt a
  have hvb := convTime_toNat_lt vb
  have hvs := convTime_toNat_lt vs
  have hm := mode_toNat_lt m
  have hw := encodeConfigWord_eq r a vb vs m
  refine ⟨by omega, by omega, by omega, by omega, by omega, ?_, ?_, ?_, hw⟩
  · rw [Nat.testBit_to_div_mod]
    simp only [decide_eq_false_iff_not]
    norm_num
    omega
  · rw [Nat.testBit_to_div_mod]
    simp only [decide_eq_false_iff_not]
    norm_num
    omega
  · rw [Nat.testBit_to_div_mod]
    simp only [decide_eq_false_iff_not]
    norm_num
    omega

/-- C2: decoding the configuration word that encodes a range, a sample count, a
bus and a shunt conversion time and a mode returns exactly these five values,
whatever the other fields hold. -/
theorem decodeConfigWord_encodeConfigWord (r : ADCRange) (a : NumSamples) (vb vs : ConvTime)
    (m : Mode) :
    decodeConfigWord (encodeConfigWord r a vb vs m) = some (r, a, vb, vs, m) :=
  decode_encode_fields r a vb vs m

/-- C3: assigning a value `v` to one of the members MODE, VSHCT, VBUSCT, AVG,
ACDRANGE of the configuration register overlaid on a 16-bit word `w` gives a
16-bit word that has the bits of `w` at every position outside the member
(reserved bits 13-14 and reset bit 15 included), and the member reads back as
`v` modulo `2 ^ width`. -/
theorem writeField_config_isolated (f : config_member) (lo wd w v : Nat) (hw : w < 65536)
    (hf : (f, lo, wd) ∈ [(config_member.MODE, 0, 3), (config_member.VSHCT, 3, 3),
      (config_member.VBUSCT, 6, 3), (config_member.AVG, 9, 3),
      (config_member.ACDRANGE, 12, 1)]) :
    writeField config_register f w v < 65536
    ∧ (∀ i, i < lo ∨ lo + wd ≤ i →
        (writeField config_register f w v).testBit i = w.testBit i)
    ∧ readField config_register f (writeField config_register f w v) = v % 2 ^ wd := by
  simp only [List.mem_cons, Prod.mk.injEq, List.mem_singleton, List.not_mem_nil, or_false] at hf
  rcases hf with ⟨rfl, rfl, rfl⟩ | ⟨rfl, rfl, rfl⟩ | ⟨rfl, rfl, rfl⟩ | ⟨rfl, rfl, rfl⟩
    | ⟨rfl, rfl, rfl⟩
  all_goals
    refine ⟨?_, fun i hi => writeField_testBit config_register _ w v i hi,
      readField_writeField config_register _ w v⟩
    simp only [writeField, bitOffset, bitWidth, config_register]
    simp
    omega

/-- Witness for C3: the sample count of the word `0xFFFF` set to 10 (reduced to 2). -/
theorem writeField_config_isolated_witness :
    writeField config_register .AVG 0xFFFF 10 = 0xF5FF
    ∧ readField config_register .AVG (writeField config_register .AVG 0xFFFF 10) = 10 % 2 ^ 3 :=
  ⟨by decide,
    (writeField_config_isolated .AVG 9 3 0xFFFF 10 (by decide) (by simp)).2.2⟩

/-- C4: decoding is total and ignores the reserved and reset bits: every 3-bit
value is an enumerator of `Mode`, `ConvTime` and `NumSamples` and every 1-bit
value one of `ADCRange`; every word decodes to a tuple whose encoding is the
word ANDed with `0x1FFF`; two words with the same bits 12:0 decode alike. -/
theorem decodeConfigWord_total (w w2 : Nat) (h : w % 2 ^ 13 = w2 % 2 ^ 13) :
    (∀ k, k < 8 → ∃ m : Mode, Mode.ofNat? k = some m ∧ m.toNat = k)
    ∧ (∀ k, k < 8 → ∃ t : ConvTime, ConvTime.ofNat? k = some t ∧ t.toNat = k)
    ∧ (∀ k, k < 8 → ∃ a : NumSamples, NumSamples.ofNat? k = some a ∧ a.toNat = k)
    ∧ (∀ k, k < 2 → ∃ r : ADCRange, ADCRange.ofNat? k = some r ∧ r.toNat = k)
    ∧ (∃ r a vb vs m, decodeConfigWord w = some (r, a, vb, vs, m)
        ∧ encodeConfigWord r a vb vs m = w &&& 0x1FFF)
    ∧ decodeConfigWord w2 = decodeConfigWord w := by
  have total : ∀ x : Nat, ∃ r a vb vs m, decodeConfigWord x = some (r, a, vb, vs, m)
      ∧ encodeConfigWord r a vb vs m = x % 2 ^ 13 := by
    intro x
    obtain ⟨m, -, hm⟩ := mode_exists_of_lt (x % 8) (by omega)
    obtain ⟨vs, -, hvs⟩ := convTime_exists_of_lt (x / 8 % 8) (by omega)
    obtain ⟨vb, -, hvb⟩ := convTime_exists_of_lt (x / 64 % 8) (by omega)
    obtain ⟨a, -, ha⟩ := numSamples_exists_of_lt (x / 512 % 8) (by omega)
    obtain ⟨r, -, hr⟩ := adcRange_exists_of_lt (x / 4096 % 2) (by omega)
    refine ⟨r, a, vb, vs, m,
      decodeConfigWord_of_fields x r a vb vs m hm.symm hvs.symm hvb.symm ha.symm hr.symm, ?_⟩
    rw [encodeConfigWord_eq]
    norm_num
    omega
  refine ⟨mode_exists_of_lt, convTime_exists_of_lt, numSamples_exists_of_lt,
    adcRange_exists_of_lt, ?_, ?_⟩
  · obtain ⟨r, a, vb, vs, m, hd, he⟩ := total w
    refine ⟨r, a, vb, vs, m, hd, ?_⟩
    rw [he]
    exact (Nat.and_pow_two_sub_one_eq_mod w 13).symm
  · obtain ⟨r, a, vb, vs, m, hd, he⟩ := total w
    obtain ⟨r2, a2, vb2, vs2, m2, hd2, he2⟩ := total w2
    have hd3 := decode_encode_fields r2 a2 vb2 vs2 m2
    have hd4 := decode_encode_fields r a vb vs m
    rw [he2, ← h, ← he, hd4] at hd3
    rw [hd, hd2, ← hd3]

/-- Witness for C4: `0xFABC` and `0x1ABC` differ only in bits 15:13. -/
theorem decodeConfigWord_total_witness :
    0xFABC % 2 ^ 13 = 0x1ABC % 2 ^ 13 ∧ decodeConfigWord 0x1ABC = decodeConfigWord 0xFABC :=
  ⟨by decide, (decodeConfigWord_total 0xFABC 0x1ABC (by decide)).2.2.2.2.2⟩

/-! ## The mask/enable word -/

/-- C5: the alert-condition-enable flags read from a mask/enable word `w` are
SOL = bit 15, SUL = bit 14, BOL = bit 13, BUL = bit 12, POL = bit 11 and
CNVR = bit 10 of `w`. -/
theorem mask_enable_alert_bits (w : Nat) :
    readField mask_enable_register .SOL w = (w.testBit 15).toNat
    ∧ readField mask_enable_register .SUL w = (w.testBit 14).toNat
    ∧ readField mask_enable_register .BOL w = (w.testBit 13).toNat
    ∧ readField mask_enable_register .BUL w = (w.testBit 12).toNat
    ∧ readField mask_enable_register .POL w = (w.testBit 11).toNat
    ∧ readField mask_enable_register .CNVR w = (w.testBit 10).toNat := by
  simp only [Nat.toNat_testBit]
  simp [readField, bitOffset, bitWidth, mask_enable_register]

/-- C6, as stated, fails at the word `0x24` (bits 2 and 5 set): OVF and MemError
read 1 although bits 3 and 11 are clear, so the flags are not bits
0, 1, 3, 4, 10, 11, and bit 5, far from reserved, is the MemError flag. -/
theorem mask_enable_status_bits_counterexample :
    readField mask_enable_register .OVF 0x24 = 1 ∧ Nat.testBit 0x24 3 = false
    ∧ readField mask_enable_register .MemError 0x24 = 1 ∧ Nat.testBit 0x24 11 = false
    ∧ readField mask_enable_register .MemError (0x24 - 2 ^ 5) = 0
    ∧ ¬ (readField mask_enable_register .LEN 0x24 = (Nat.testBit 0x24 0).toNat
        ∧ readField mask_enable_register .APOL 0x24 = (Nat.testBit 0x24 1).toNat
        ∧ readField mask_enable_register .OVF 0x24 = (Nat.testBit 0x24 3).toNat
        ∧ readField mask_enable_register .CVRF 0x24 = (Nat.testBit 0x24 4).toNat
        ∧ readField mask_enable_register .AFF 0x24 = (Nat.testBit 0x24 10).toNat
        ∧ readField mask_enable_register .MemError 0x24 = (Nat.testBit 0x24 11).toNat) := by
  decide

/-- C6, amended: the flags LEN, APOL, OVF, CVRF, AFF, MemError read from a
mask/enable word `w` are bits 0, 1, 2, 3, 4, 5 of `w` in that order; bits 6 to 9
are the member RESERVED and belong to no flag: storing anything in them changes
no other member. -/
theorem mask_enable_status_bits (w : Nat) :
    readField mask_enable_register .LEN w = (w.testBit 0).toNat
    ∧ readField mask_enable_register .APOL w = (w.testBit 1).toNat
    ∧ readField mask_enable_register .OVF w = (w.testBit 2).toNat
    ∧ readField mask_enable_register .CVRF w = (w.testBit 3).toNat
    ∧ readField mask_enable_register .AFF w = (w.testBit 4).toNat
    ∧ readField mask_enable_register .MemError w = (w.testBit 5).toNat
    ∧ readField mask_enable_register .RESERVED w = w / 2 ^ 6 % 2 ^ 4
    ∧ ∀ (f : mask_enable_member) (v : Nat), f ≠ .RESERVED →
        readField mask_enable_register f (writeField mask_enable_register .RESERVED w v)
          = readField mask_enable_register f w := by
  simp only [Nat.toNat_testBit]
  refine ⟨?_, ?_, ?_, ?_, ?_, ?_, ?_, ?_⟩
  · simp [readField, bitOffset, bitWidth, mask_enable_register]
  · simp [readField, bitOffset, bitWidth, mask_enable_register]
  · simp [readField, bitOffset, bitWidth, mask_enable_register]
  · simp [readField, bitOffset, bitWidth, mask_enable_register]
  · simp [readField, bitOffset, bitWidth, mask_enable_register]
  · simp [readField, bitOffset, bitWidth, mask_enable_register]
  · simp [readField, bitOffset, bitWidth, mask_enable_register]
  · intro f v hf
    cases f <;>
      first
      | exact absurd rfl hf
      | (simp only [readField, writeField, bitOffset, bitWidth, mask_enable_register]
         simp
         omega)

/-- Witness for C6, amended: filling the reserved bits of the word `0x24` leaves
the overflow flag as it was. -/
theorem mask_enable_status_bits_witness :
    mask_enable_member.OVF ≠ mask_enable_member.RESERVED
    ∧ readField mask_enable_register .OVF (writeField mask_enable_register .RESERVED 0x24 15)
        = readField mask_enable_register .OVF 0x24 :=
  ⟨by decide, (mask_enable_status_bits 0x24).2.2.2.2.2.2.2 .OVF 15 (by decide)⟩

/-! ## Unit scaling -/

/-- C7: for every signed 16-bit raw shunt code `c`, the shunt voltage decoded
from the register word holding `c` is `c * 0.0025` mV in the 81.92 mV range and
`c * 0.000625` mV in the 20.48 mV range, the first being 4 times the second;
the word `0x4000` reads 40.96 mV and 10.24 mV. -/
theorem readShuntVoltage_scaling (c : Int) (hlo : -32768 ≤ c) (hhi : c ≤ 32767) :
    shuntVoltage .RANGE_81_92mV c = c * 0.0025
    ∧ shuntVoltage .RANGE_20_48mV c = c * 0.000625
    ∧ readShuntVoltage .RANGE_81_92mV (word_of_int16 c) = c * 0.0025
    ∧ readShuntVoltage .RANGE_20_48mV (word_of_int16 c) = c * 0.000625
    ∧ readShuntVoltage .RANGE_81_92mV (word_of_int16 c)
        = 4 * readShuntVoltage .RANGE_20_48mV (word_of_int16 c)
    ∧ word_of_int16 16384 = 0x4000
    ∧ readShuntVoltage .RANGE_81_92mV 0x4000 = 40.96
    ∧ readShuntVoltage .RANGE_20_48mV 0x4000 = 10.24 := by
  have hc := int16_of_word_of_int16 c hlo hhi
  have h16 : int16_of_word 0x4000 = 16384 := by decide
  refine ⟨rfl, rfl, ?_, ?_, ?_, by decide, ?_, ?_⟩
  · simp only [readShuntVoltage, shuntVoltage, hc, SHUNT_VOLTAGE_81_92mv_LSB]
  · simp only [readShuntVoltage, shuntVoltage, hc, SHUNT_VOLTAGE_20_48mv_LSB]
  · simp only [readShuntVoltage, shuntVoltage, hc, SHUNT_VOLTAGE_81_92mv_LSB,
      SHUNT_VOLTAGE_20_48mv_LSB]
    norm_num
    ring
  · simp only [readShuntVoltage, shuntVoltage, h16, SHUNT_VOLTAGE_81_92mv_LSB]
    norm_num
  · simp only [readShuntVoltage, shuntVoltage, h16, SHUNT_VOLTAGE_20_48mv_LSB]
    norm_num

/-- Witness for C7: the code -1, held by the word `0xFFFF`. -/
theorem readShuntVoltage_scaling_witness :
    word_of_int16 (-1) = 0xFFFF
    ∧ readShuntVoltage .RANGE_81_92mV (word_of_int16 (-1)) = ((-1 : Int) : ℚ) * 0.0025 :=
  ⟨by decide, (readShuntVoltage_scaling (-1) (by decide) (by decide)).2.2.1⟩

/-- C8: `CURRENT_LSB` is `MAXIMUM_EXPECTED_CURRENT / 2^15 = 5/32768` amperes
(0.00015259 to eight decimals), a closed constant; for every signed 16-bit raw
current code `c` the current decoded from the register word holding `c` is
`c * CURRENT_LSB`; the code 1000 reads 0.152587890625 A, 0.15259 to five
decimals. -/
theorem readCurrent_scaling (c : Int) (hlo : -32768 ≤ c) (hhi : c ≤ 32767) :
    CURRENT_LSB = MAXIMUM_EXPECTED_CURRENT / 2 ^ 15
    ∧ CURRENT_LSB = 5 / 32768
    ∧ round (CURRENT_LSB * 10 ^ 8) = 15259
    ∧ current c = c * CURRENT_LSB
    ∧ readCurrent (word_of_int16 c) = c * CURRENT_LSB
    ∧ readCurrent 1000 = 0.152587890625
    ∧ round (readCurrent 1000 * 10 ^ 5) = 15259 := by
  have hc := int16_of_word_of_int16 c hlo hhi
  have h1000 : int16_of_word 1000 = 1000 := by decide
  refine ⟨?_, CURRENT_LSB_eq, ?_, rfl, ?_, ?_, ?_⟩
  · norm_num [CURRENT_LSB, CURRENT_LSB_MINIMUM, MAXIMUM_EXPECTED_CURRENT, Nat.shiftLeft_eq]
  · rw [CURRENT_LSB_eq, round_eq, Int.floor_eq_iff]
    norm_num
  · simp only [readCurrent, current, hc]
  · simp only [readCurrent, current, h1000, CURRENT_LSB_eq]
    norm_num
  · simp only [readCurrent, current, h1000, CURRENT_LSB_eq]
    rw [round_eq, Int.floor_eq_iff]
    norm_num

/-- Witness for C8: the most negative code, held by the word `0x8000`. -/
theorem readCurrent_scaling_witness :
    word_of_int16 (-32768) = 0x8000
    ∧ readCurrent (word_of_int16 (-32768)) = ((-32768 : Int) : ℚ) * CURRENT_LSB :=
  ⟨by decide, (readCurrent_scaling (-32768) (by decide) (by decide)).2.2.2.2.1⟩

/-- C9: `POWER_LSB` is `32 * CURRENT_LSB = 5/1024` watts; for every unsigned
16-bit raw power code `p` the power decoded from the register word `p` is
`p * CURRENT_LSB * 32`, which is not negative; the code 1000 reads 4.8828125 W,
4.8828 to four decimals. -/
theorem readPower_scaling (p : Nat) (hp : p < 65536) :
    POWER_LSB = 32 * CURRENT_LSB
    ∧ POWER_LSB = 5 / 1024
    ∧ power p = p * CURRENT_LSB * 32
    ∧ readPower p = p * CURRENT_LSB * 32
    ∧ readPower p = p * POWER_LSB
    ∧ 0 ≤ readPower p
    ∧ readPower 1000 = 4.8828125
    ∧ round (readPower 1000 * 10 ^ 4) = 48828 := by
  have hu : uint16_of_word p = p := Nat.mod_eq_of_lt hp
  have h1000 : uint16_of_word 1000 = 1000 := by decide
  refine ⟨?_, ?_, rfl, ?_, ?_, ?_, ?_, ?_⟩
  · simp only [POWER_LSB]
    ring
  · simp only [POWER_LSB, CURRENT_LSB_eq]
    norm_num
  · simp only [readPower, power, hu]
  · simp only [readPower, power, hu, POWER_LSB]
    ring
  · simp only [readPower, power, CURRENT_LSB_eq]
    positivity
  · simp only [readPower, power, h1000, CURRENT_LSB_eq]
    norm_num
  · simp only [readPower, power, h1000, CURRENT_LSB_eq]
    rw [round_eq, Int.floor_eq_iff]
    norm_num

/-- Witness for C9: the largest power code. -/
theorem readPower_scaling_witness :
    (65535 : Nat) < 65536 ∧ readPower 65535 = ((65535 : Nat) : ℚ) * CURRENT_LSB * 32 :=
  ⟨by decide, (readPower_scaling 65535 (by decide)).2.2.2.1⟩

/-- C10: the calibration value for a 0.01 ohm shunt is 3355 and fits the 15-bit
member SHUNT_CAL; for every positive shunt resistance the calibration value
fits the member (is at most 32767, and reads back unchanged once stored) if
and only if the resistance is above 0.001024 ohm. -/
theorem calibration_fits (R : ℚ) (hR : 0 < R) :
    calibration 0.01 = 3355
    ∧ readField calibration_register .SHUNT_CAL
        (writeField calibration_register .SHUNT_CAL 0 3355) = 3355
    ∧ 0 ≤ calibration R
    ∧ (calibration R ≤ 32767 ↔ (0.001024 : ℚ) < R)
    ∧ (readField calibration_register .SHUNT_CAL
        (writeField calibration_register .SHUNT_CAL 0 (calibration R).toNat)
          = (calibration R).toNat ↔ (0.001024 : ℚ) < R) := by
  have h0 := calibration_nonneg R hR
  have hiff := calibration_le_iff R hR
  refine ⟨?_, by decide, h0, hiff, ?_⟩
  · rw [calibration, CURRENT_LSB_eq, Int.floor_eq_iff]
    norm_num
  · rw [readField_writeField, ← hiff]
    have hw : bitWidth calibration_register .SHUNT_CAL = 15 := rfl
    rw [hw]
    norm_num
    omega

/-- Witness for C10: at exactly 0.001024 ohm the value is 32768 and does not fit. -/
theorem calibration_fits_witness :
    (0 : ℚ) < 0.001024 ∧ ¬ calibration 0.001024 ≤ 32767 :=
  ⟨by norm_num, fun h => lt_irrefl _
    ((calibration_fits 0.001024 (by norm_num)).2.2.2.1.mp h)⟩

/-! ## Auxiliary facts on whole structs -/

/-- Total width of a struct extended by one member. -/
theorem totalWidth_append_singleton {F : Type} (pre : Layout F) (f : F) (n : Nat) :
    totalWidth (pre ++ [(f, n)]) = totalWidth pre + n := by
  simp [totalWidth]

/-- Offset and width of a member that is not among the members declared before it. -/
theorem bitOffset_bitWidth_append {F : Type} [DecidableEq F] (pre suf : Layout F) (f : F)
    (n : Nat) (hf : ∀ p ∈ pre, p.1 ≠ f) :
    bitOffset (pre ++ (f, n) :: suf) f = totalWidth pre
    ∧ bitWidth (pre ++ (f, n) :: suf) f = n := by
  induction pre with
  | nil => simp [bitOffset, bitWidth, totalWidth]
  | cons q pre ih =>
    obtain ⟨g, k⟩ := q
    have hg : g ≠ f := hf (g, k) (by simp)
    obtain ⟨h1, h2⟩ := ih (fun p hp => hf p (by simp [hp]))
    constructor
    · simp only [List.cons_append, bitOffset, hg, if_false, totalWidth, List.map_cons,
        List.sum_cons]
      exact congrArg (fun x => k + x) h1
    · simp only [List.cons_append, bitWidth, hg, if_false]
      exact h2

/-- Storing the next member on top of the low part of a word extends the low part. -/
theorem store_prefix (lo wd w : Nat) :
    w % 2 ^ lo % 2 ^ lo + w / 2 ^ lo % 2 ^ wd % 2 ^ wd * 2 ^ lo
      + w % 2 ^ lo / 2 ^ (lo + wd) * 2 ^ (lo + wd) = w % 2 ^ (lo + wd) := by
  have h1 : w % 2 ^ lo < 2 ^ (lo + wd) :=
    lt_of_lt_of_le (Nat.mod_lt _ (Nat.two_pow_pos lo))
      (Nat.pow_le_pow_right (by decide) (Nat.le_add_right lo wd))
  rw [Nat.div_eq_of_lt h1, Nat.mod_mod, Nat.mod_mod, Nat.zero_mul, Nat.add_zero, Nat.pow_add,
    Nat.mod_mul, Nat.mul_comm (2 ^ lo)]

/-- Storing the members of the tail of a struct, in order, on top of the low
part of a word that the members before them cover. -/
theorem repack_suffix {F : Type} [DecidableEq F] (L : Layout F) (w : Nat) (suf : Layout F) :
    ∀ pre : Layout F, L = pre ++ suf → (L.map Prod.fst).Nodup →
      suf.foldl (fun acc p => writeField L p.1 acc (readField L p.1 w)) (w % 2 ^ totalWidth pre)
        = w % 2 ^ totalWidth L := by
  induction suf with
  | nil =>
    intro pre hL _
    simp [hL]
  | cons q suf ih =>
    intro pre hL hnd
    obtain ⟨f, n⟩ := q
    have hf : ∀ p ∈ pre, p.1 ≠ f := by
      intro p hp hpf
      rw [hL, List.map_append, List.map_cons] at hnd
      have hdis := (List.nodup_append.mp hnd).2.2
      exact hdis (List.mem_map_of_mem Prod.fst hp) (by simp [hpf]) 
    obtain ⟨ho, hw⟩ := bitOffset_bitWidth_append pre suf f n hf
    rw [← hL] at ho hw
    have hL2 : L = (pre ++ [(f, n)]) ++ suf := by simp [hL]
    have step : writeField L f (w % 2 ^ totalWidth pre) (readField L f w)
        = w % 2 ^ totalWidth (pre ++ [(f, n)]) := by
      unfold writeField readField
      rw [ho, hw, totalWidth_append_singleton]
      exact store_prefix _ _ w
    rw [List.foldl_cons, step]
    exact ih (pre ++ [(f, n)]) hL2 hnd

/-- Extracting and re-storing every member of a struct with distinct member
names keeps exactly the bits of the word that the struct covers. -/
theorem repack_eq_mod {F : Type} [DecidableEq F] (L : Layout F) (w : Nat)
    (hnd : (L.map Prod.fst).Nodup) : repack L w = w % 2 ^ totalWidth L := by
  have h := repack_suffix L w L [] rfl hnd
  simpa [repack, totalWidth, Nat.mod_one] using h
/-- The low fifteen bits of a word are not changed by flipping bit 15. -/
theorem xor_bit15_mod (w : Nat) : (w ^^^ 0x8000) % 2 ^ 15 = w % 2 ^ 15 := by
  apply mod_eq_of_testBit_eq
  intro i hi
  have h : (0x8000 : Nat) = 2 ^ 15 := by norm_num
  rw [Nat.testBit_xor, h, Nat.testBit_two_pow]
  have hne : ¬ 15 = i := by omega
  simp [hne]

/-! ## Rejection of invalid configurations -/

/-- C13: the raw bus code of a bus-voltage register word is its low 15 bits,
bit 15 being the reserved member; words with the same low 15 bits, such as a
word and the word with bit 15 flipped, decode to the same voltage, which is
the code times 0.0016 V and lies between 0 and 32767 * 0.0016 = 52.4272 V. -/
theorem readBusVoltage_low_bits (w w2 : Nat) (h : w2 % 2 ^ 15 = w % 2 ^ 15) :
    readField bus_voltage_register .VBUS w = w % 32768
    ∧ readField bus_voltage_register .RESERVED w = (w.testBit 15).toNat
    ∧ readBusVoltage w = ((w % 32768 : Nat) : ℚ) * 0.0016
    ∧ readBusVoltage w2 = readBusVoltage w
    ∧ readBusVoltage (w ^^^ 0x8000) = readBusVoltage w
    ∧ 0 ≤ readBusVoltage w
    ∧ readBusVoltage w ≤ 52.4272
    ∧ readBusVoltage 32767 = 52.4272
    ∧ (32767 : ℚ) * 0.0016 = 52.4272 := by
  have hv : ∀ x : Nat, readField bus_voltage_register .VBUS x = x % 32768 := by
    intro x
    simp [readField, bitOffset, bitWidth, bus_voltage_register]
  have hb : ∀ x : Nat, readBusVoltage x = ((x % 32768 : Nat) : ℚ) * 0.0016 := by
    intro x
    simp only [readBusVoltage, busVoltage, BUS_VOLTAGE_LSB, hv]
  have h2 : w2 % 32768 = w % 32768 := h
  have hx : (w ^^^ 0x8000) % 32768 = w % 32768 := xor_bit15_mod w
  have hq : ((w % 32768 : Nat) : ℚ) ≤ 32767 := by
    have : w % 32768 ≤ 32767 := by omega
    exact_mod_cast this
  have hq0 : (0 : ℚ) ≤ ((w % 32768 : Nat) : ℚ) := Nat.cast_nonneg _
  refine ⟨hv w, ?_, hb w, ?_, ?_, ?_, ?_, ?_, by norm_num⟩
  · rw [Nat.toNat_testBit]
    simp [readField, bitOffset, bitWidth, bus_voltage_register]
  · rw [hb, hb, h2]
  · rw [hb, hb, hx]
  · rw [hb]
    exact mul_nonneg hq0 (by norm_num)
  · rw [hb]
    norm_num
    linarith
  · rw [hb]
    norm_num

/-- Witness for C13: `0xFFFF` and `0x7FFF` differ in bit 15 only. -/
theorem readBusVoltage_low_bits_witness :
    0x7FFF % 2 ^ 15 = 0xFFFF % 2 ^ 15 ∧ readBusVoltage 0x7FFF = readBusVoltage 0xFFFF :=
  ⟨by decide, (readBusVoltage_low_bits 0xFFFF 0x7FFF (by decide)).2.2.2.1⟩

/-- C14: the `int16_t` registers are two's complement over the full 16-bit
range: every value from -32768 to 32767 is read back from the word holding it,
every 16-bit word is the word holding its reading, and the reading of `w` is
`w` below 32768 and `w - 65536` from there on. -/
theorem int16_round_trip (v : Int) (w : Nat) (hlo : -32768 ≤ v) (hhi : v ≤ 32767)
    (hw : w < 65536) :
    int16_of_word (word_of_int16 v) = v
    ∧ word_of_int16 v < 65536
    ∧ word_of_int16 (int16_of_word w) = w
    ∧ int16_of_word w = (if w < 32768 then (w : Int) else (w : Int) - 65536)
    ∧ -32768 ≤ int16_of_word w
    ∧ int16_of_word w ≤ 32767 := by
  refine ⟨int16_of_word_of_int16 v hlo hhi, ?_, ?_, ?_, ?_, ?_⟩
  · unfold word_of_int16
    omega
  · unfold word_of_int16 int16_of_word
    split <;> omega
  · unfold int16_of_word
    split <;> split <;> omega
  · unfold int16_of_word
    split <;> omega
  · unfold int16_of_word
    split <;> omega

/-- Witness for C14: the value -2 and the word `0x8000`. -/
theorem int16_round_trip_witness :
    word_of_int16 (-2) = 0xFFFE ∧ int16_of_word 0x8000 = -32768
    ∧ int16_of_word (word_of_int16 (-2)) = -2
    ∧ word_of_int16 (int16_of_word 0x8000) = 0x8000 :=
  ⟨by decide, by decide,
    (int16_round_trip (-2) 0x8000 (by decide) (by decide) (by decide)).1,
    (int16_round_trip (-2) 0x8000 (by decide) (by decide) (by decide)).2.2.1⟩

/-- C15, as stated, fails at the word `0xA080`: the member DIEID reads `0xA08`,
the high 12 bits, while the low 12 bits of the word are `0x080`. -/
theorem devide_id_low_bits_counterexample :
    readField devide_id_register .DIEID 0xA080 = 0xA08
    ∧ 0xA080 % 4096 = 0x080
    ∧ ¬ readField devide_id_register .DIEID 0xA080 = 0xA080 % 4096 := by
  decide

/-- C15, amended: the die ID read through the member DIEID of a 16-bit device
ID word `w` is the high 12 bits of `w`, bits 15:4, that is `w / 16`; the low 4
bits are the member RESERVED. -/
theorem devide_id_high_bits (w : Nat) (hw : w < 65536) :
    readField devide_id_register .DIEID w = w / 16
    ∧ readField devide_id_register .DIEID w < 4096
    ∧ readField devide_id_register .RESERVED w = w % 16
    ∧ (∀ i, (readField devide_id_register .DIEID w).testBit i = w.testBit (4 + i))
    ∧ w = readField devide_id_register .RESERVED w
        + 16 * readField devide_id_register .DIEID w := by
  have hd : readField devide_id_register .DIEID w = w / 2 ^ 4 % 2 ^ 12 := by
    simp [readField, bitOffset, bitWidth, devide_id_register]
  have hr : readField devide_id_register .RESERVED w = w % 16 := by
    simp [readField, bitOffset, bitWidth, devide_id_register]
  have hd2 : readField devide_id_register .DIEID w = w / 2 ^ 4 := by
    rw [hd]
    norm_num
    omega
  refine ⟨by rw [hd2]; norm_num, by rw [hd]; exact Nat.mod_lt _ (by norm_num), hr, ?_, ?_⟩
  · intro i
    rw [hd2, ← Nat.shiftRight_eq_div_pow, Nat.testBit_shiftRight]
  · rw [hr, hd2]
    norm_num
    omega

/-- Witness for C15, amended: the word `0xA080`. -/
theorem devide_id_high_bits_witness :
    0xA080 < 65536 ∧ readField devide_id_register .DIEID 0xA080 = 0xA080 / 16 :=
  ⟨by decide, (devide_id_high_bits 0xA080 (by decide)).1⟩

/-! ## Alert scale, register map, modes and layouts -/

/-- The value of the macro `POWER_LSB` as a fraction. -/
theorem POWER_LSB_eq : POWER_LSB = 5 / 1024 := by
  rw [POWER_LSB, CURRENT_LSB_eq]
  norm_num

/-- Quotients of a non-zero threshold by two different non-zero scales differ. -/
theorem div_ne_div_of_ne (t a b : ℚ) (ht : t ≠ 0) (ha : a ≠ 0) (hb : b ≠ 0) (hab : a ≠ b) :
    t / a ≠ t / b := by
  intro h
  rw [div_eq_div_iff ha hb] at h
  exact hab (mul_left_cancel₀ ht h).symm

/-- C16: the scale applied to an alert limit is the shunt-voltage LSB of the
configured range (0.0025 or 0.000625) for the two shunt alerts, 0.0016 for the
two bus alerts and 5/1024 for the power alert; the four constants are pairwise
different, so for a non-zero threshold a shunt alert and a bus alert get
neither the same scale nor the same quotient threshold / scale. -/
theorem alertLimitLSB_source_specific (range range2 : ADCRange) (s b : AlertOn) (t ls lb : ℚ)
    (ht : t ≠ 0)
    (hs : s = .ALERT_SHUNT_OVER_LIMIT ∨ s = .ALERT_SHUNT_UNDER_LIMIT)
    (hb : b = .ALERT_BUS_OVER_LIMIT ∨ b = .ALERT_BUS_UNDER_LIMIT)
    (hls : alertLimitLSB s range = some ls) (hlb : alertLimitLSB b range2 = some lb) :
    alertLimitLSB .ALERT_SHUNT_OVER_LIMIT .RANGE_81_92mV = some 0.0025
    ∧ alertLimitLSB .ALERT_SHUNT_UNDER_LIMIT .RANGE_81_92mV = some 0.0025
    ∧ alertLimitLSB .ALERT_SHUNT_OVER_LIMIT .RANGE_20_48mV = some 0.000625
    ∧ alertLimitLSB .ALERT_SHUNT_UNDER_LIMIT .RANGE_20_48mV = some 0.000625
    ∧ alertLimitLSB .ALERT_BUS_OVER_LIMIT range = some 0.0016
    ∧ alertLimitLSB .ALERT_BUS_UNDER_LIMIT range = some 0.0016
    ∧ alertLimitLSB .ALERT_POWER_OVER_LIMIT range = some POWER_LSB
    ∧ POWER_LSB = 5 / 1024
    ∧ List.Pairwise (fun x y => x ≠ y)
        [SHUNT_VOLTAGE_81_92mv_LSB, SHUNT_VOLTAGE_20_48mv_LSB, BUS_VOLTAGE_LSB, POWER_LSB]
    ∧ ls ≠ lb
    ∧ t / ls ≠ t / lb := by
  have hbus : lb = 0.0016 := by
    rcases hb with rfl | rfl <;>
      · simp only [alertLimitLSB, BUS_VOLTAGE_LSB, Option.some.injEq] at hlb
        exact hlb.symm
  have hshunt : ls = 0.0025 ∨ ls = 0.000625 := by
    rcases hs with rfl | rfl <;> cases range <;>
      simp only [alertLimitLSB, SHUNT_VOLTAGE_81_92mv_LSB, SHUNT_VOLTAGE_20_48mv_LSB,
        Option.some.injEq] at hls
    · exact Or.inl hls.symm
    · exact Or.inr hls.symm
    · exact Or.inl hls.symm
    · exact Or.inr hls.symm
  have hne : ls ≠ lb := by
    rcases hshunt with h | h <;> rw [h, hbus] <;> norm_num
  have hls0 : ls ≠ 0 := by
    rcases hshunt with h | h <;> rw [h] <;> norm_num
  have hlb0 : lb ≠ 0 := by
    rw [hbus]
    norm_num
  refine ⟨rfl, rfl, rfl, rfl, rfl, rfl, rfl, POWER_LSB_eq, ?_, hne,
    div_ne_div_of_ne t ls lb ht hls0 hlb0 hne⟩
  rw [POWER_LSB_eq]
  simp only [SHUNT_VOLTAGE_81_92mv_LSB, SHUNT_VOLTAGE_20_48mv_LSB, BUS_VOLTAGE_LSB,
    List.pairwise_cons, List.mem_cons, List.mem_singleton, List.not_mem_nil, forall_eq_or_imp,
    forall_eq, IsEmpty.forall_iff, implies_true, List.Pairwise.nil, and_true]
  norm_num

/-- Witness for C16: the threshold 2.5 for a shunt over-limit alert in the wide
range and for a bus over-limit alert. -/
theorem alertLimitLSB_source_specific_witness :
    (2.5 : ℚ) ≠ 0 ∧ (2.5 : ℚ) / 0.0025 ≠ 2.5 / 0.0016 :=
  ⟨by norm_num,
    (alertLimitLSB_source_specific .RANGE_81_92mV .RANGE_81_92mV .ALERT_SHUNT_OVER_LIMIT
      .ALERT_BUS_OVER_LIMIT 2.5 0.0025 0.0016 (by norm_num) (Or.inl rfl) (Or.inl rfl) rfl
      rfl).2.2.2.2.2.2.2.2.2.2⟩

/-- C17: the register address macros are 0x00 to 0x07 for configuration, shunt
voltage, bus voltage, power, current, calibration, mask/enable and alert limit,
0x3E for the manufacturer ID and 0x3F for the device ID; the ten addresses are
pairwise distinct and each fits one byte. -/
theorem register_address_map :
    CONFIGURATION_REGISTER = 0x00
    ∧ SHUNT_VOLTAGE_REGISTER = 0x01
    ∧ BUS_VOLTAGE_REGISTER = 0x02
    ∧ POWER_REGISTER = 0x03
    ∧ CURRENT_REGISTER = 0x04
    ∧ CALIBRATION_REGISTER = 0x05
    ∧ MASK_ENABLE_REGISTER = 0x06
    ∧ ALERT_LIMIT_REGISTER = 0x07
    ∧ MANUFACTURERID_REGISTER = 0x3E
    ∧ DEVICEID_REGISTER = 0x3F
    ∧ registerAddresses.length = 10
    ∧ registerAddresses.Nodup
    ∧ ∀ a ∈ registerAddresses, a < 256 := by
  decide

/-- C18: `Mode` has exactly 8 enumerators, numbered 0 to 7 in declaration
order, with the two shutdown encodings 0 and 4; a mode is a shutdown mode iff
bits 1:0 of its code are zero, measures the shunt iff bit 0 is set, measures
the bus iff bit 1 is set, and a mode that is no shutdown mode is continuous iff
bit 2 is set and single-shot otherwise. -/
theorem mode_code_bits (m : Mode) :
    Mode.all.length = 8
    ∧ Mode.all.map Mode.toNat = [0, 1, 2, 3, 4, 5, 6, 7]
    ∧ m ∈ Mode.all
    ∧ Mode.ofNat? m.toNat = some m
    ∧ Mode.MODE_SHUTDOWN.toNat = 0
    ∧ Mode.MODE_SHUTDOWN2.toNat = 4
    ∧ (m.isShutdown = true ↔ m = .MODE_SHUTDOWN ∨ m = .MODE_SHUTDOWN2)
    ∧ (m.isShutdown = true ↔ m.toNat.testBit 0 = false ∧ m.toNat.testBit 1 = false)
    ∧ (m.measuresShunt = true ↔ m.toNat.testBit 0 = true)
    ∧ (m.measuresBus = true ↔ m.toNat.testBit 1 = true)
    ∧ (m.isShutdown = false →
        (m.isContinuous = true ↔ m.toNat.testBit 2 = true)
        ∧ (m.isSingleShot = true ↔ m.toNat.testBit 2 = false)) := by
  cases m <;> decide

/-- Witness for C18: the continuous bus mode, code 6. -/
theorem mode_code_bits_witness :
    Mode.MODE_CONTINUOUS_BUS.isShutdown = false
    ∧ (Mode.MODE_CONTINUOUS_BUS.isContinuous = true
        ↔ Mode.MODE_CONTINUOUS_BUS.toNat.testBit 2 = true) :=
  ⟨by decide, ((mode_code_bits .MODE_CONTINUOUS_BUS).2.2.2.2.2.2.2.2.2.2 (by decide)).1⟩

/-- C19: each bit-field struct of the `reg` union (configuration, bus voltage,
calibration, mask/enable, device ID) partitions the 16-bit word: its widths sum
to 16, its members lie at the listed consecutive (offset, width) ranges, every
bit 0 to 15 belongs to exactly one member, two different members have disjoint
ranges, and extracting all members of a 16-bit word and storing them again
gives the word back. -/
theorem layouts_partition_word (w : Nat) (hw : w < 65536) :
    (totalWidth config_register = 16
      ∧ config_register.map (fun p =>
          (bitOffset config_register p.1, bitWidth config_register p.1))
          = [(0, 3), (3, 3), (6, 3), (9, 3), (12, 1), (13, 2), (15, 1)]
      ∧ (∀ i, i < 16 → (bitOwners config_register i).length = 1)
      ∧ (∀ f g : config_member, f ≠ g →
          bitOffset config_register f + bitWidth config_register f ≤ bitOffset config_register g
          ∨ bitOffset config_register g + bitWidth config_register g
              ≤ bitOffset config_register f)
      ∧ repack config_register w = w)
    ∧ (totalWidth bus_voltage_register = 16
      ∧ bus_voltage_register.map (fun p =>
          (bitOffset bus_voltage_register p.1, bitWidth bus_voltage_register p.1))
          = [(0, 15), (15, 1)]
      ∧ (∀ i, i < 16 → (bitOwners bus_voltage_register i).length = 1)
      ∧ (∀ f g : bus_voltage_member, f ≠ g →
          bitOffset bus_voltage_register f + bitWidth bus_voltage_register f
              ≤ bitOffset bus_voltage_register g
          ∨ bitOffset bus_voltage_register g + bitWidth bus_voltage_register g
              ≤ bitOffset bus_voltage_register f)
      ∧ repack bus_voltage_register w = w)
    ∧ (totalWidth calibration_register = 16
      ∧ calibration_register.map (fun p =>
          (bitOffset calibration_register p.1, bitWidth calibration_register p.1))
          = [(0, 15), (15, 1)]
      ∧ (∀ i, i < 16 → (bitOwners calibration_register i).length = 1)
      ∧ (∀ f g : calibration_member, f ≠ g →
          bitOffset calibration_register f + bitWidth calibration_register f
              ≤ bitOffset calibration_register g
          ∨ bitOffset calibration_register g + bitWidth calibration_register g
              ≤ bitOffset calibration_register f)
      ∧ repack calibration_register w = w)
    ∧ (totalWidth mask_enable_register = 16
      ∧ mask_enable_register.map (fun p =>
          (bitOffset mask_enable_register p.1, bitWidth mask_enable_register p.1))
          = [(0, 1), (1, 1), (2, 1), (3, 1), (4, 1), (5, 1), (6, 4), (10, 1), (11, 1), (12, 1),
             (13, 1), (14, 1), (15, 1)]
      ∧ (∀ i, i < 16 → (bitOwners mask_enable_register i).length = 1)
      ∧ (∀ f g : mask_enable_member, f ≠ g →
          bitOffset mask_enable_register f + bitWidth mask_enable_register f
              ≤ bitOffset mask_enable_register g
          ∨ bitOffset mask_enable_register g + bitWidth mask_enable_register g
              ≤ bitOffset mask_enable_register f)
      ∧ repack mask_enable_register w = w)
    ∧ (totalWidth devide_id_register = 16
      ∧ devide_id_register.map (fun p =>
          (bitOffset devide_id_register p.1, bitWidth devide_id_register p.1))
          = [(0, 4), (4, 12)]
      ∧ (∀ i, i < 16 → (bitOwners devide_id_register i).length = 1)
      ∧ (∀ f g : devide_id_member, f ≠ g →
          bitOffset devide_id_register f + bitWidth devide_id_register f
              ≤ bitOffset devide_id_register g
          ∨ bitOffset devide_id_register g + bitWidth devide_id_register g
              ≤ bitOffset devide_id_register f)
      ∧ repack devide_id_register w = w) := by
  have hmod : w % 2 ^ 16 = w := Nat.mod_eq_of_lt hw
  refine ⟨⟨by decide, by decide, by decide, ?_, ?_⟩, ⟨by decide, by decide, by decide, ?_, ?_⟩,
    ⟨by decide, by decide, by decide, ?_, ?_⟩, ⟨by decide, by decide, by decide, ?_, ?_⟩,
    ⟨by decide, by decide, by decide, ?_, ?_⟩⟩
  · intro f g h
    cases f <;> cases g <;> first | exact absurd rfl h | decide
  · rw [repack_eq_mod config_register w (by decide)]
    exact hmod
  · intro f g h
    cases f <;> cases g <;> first | exact absurd rfl h | decide
  · rw [repack_eq_mod bus_voltage_register w (by decide)]
    exact hmod
  · intro f g h
    cases f <;> cases g <;> first | exact absurd rfl h | decide
  · rw [repack_eq_mod calibration_register w (by decide)]
    exact hmod
  · intro f g h
    cases f <;> cases g <;> first | exact absurd rfl h | decide
  · rw [repack_eq_mod mask_enable_register w (by decide)]
    exact hmod
  · intro f g h
    cases f <;> cases g <;> first | exact absurd rfl h | decide
  · rw [repack_eq_mod devide_id_register w (by decide)]
    exact hmod

/-- Witness for C19: the word `0xBEEF` through the mask/enable struct. -/
theorem layouts_partition_word_witness :
    0xBEEF < 65536 ∧ repack mask_enable_register 0xBEEF = 0xBEEF :=
  ⟨by decide, (layouts_partition_word 0xBEEF (by decide)).2.2.2.1.2.2.2.2⟩

/-- C20: for every signed 16-bit raw shunt code the decoded shunt voltage lies
in [-81.92, 81.9175] mV in the 81.92 mV range and in [-20.48, 20.479375] mV in
the 20.48 mV range; the negative full scale is read exactly at the code -32768
(the word `0x8000`), and the nominal positive full scale is read at no code,
being one LSB above the reading of the code 32767. -/
theorem shuntVoltage_full_scale (c : Int) (hlo : -32768 ≤ c) (hhi : c ≤ 32767) :
    -81.92 ≤ shuntVoltage .RANGE_81_92mV c
    ∧ shuntVoltage .RANGE_81_92mV c ≤ 81.9175
    ∧ -20.48 ≤ shuntVoltage .RANGE_20_48mV c
    ∧ shuntVoltage .RANGE_20_48mV c ≤ 20.479375
    ∧ (shuntVoltage .RANGE_81_92mV c = -81.92 ↔ c = -32768)
    ∧ (shuntVoltage .RANGE_20_48mV c = -20.48 ↔ c = -32768)
    ∧ readShuntVoltage .RANGE_81_92mV 0x8000 = -81.92
    ∧ readShuntVoltage .RANGE_20_48mV 0x8000 = -20.48
    ∧ shuntVoltage .RANGE_81_92mV c ≠ 81.92
    ∧ shuntVoltage .RANGE_20_48mV c ≠ 20.48
    ∧ shuntVoltage .RANGE_81_92mV 32767 = 81.9175
    ∧ shuntVoltage .RANGE_20_48mV 32767 = 20.479375
    ∧ shuntVoltage .RANGE_81_92mV 32767 + SHUNT_VOLTAGE_81_92mv_LSB = 81.92
    ∧ shuntVoltage .RANGE_20_48mV 32767 + SHUNT_VOLTAGE_20_48mv_LSB = 20.48 := by
  have h1 : (-32768 : ℚ) ≤ (c : ℚ) := by exact_mod_cast hlo
  have h2 : (c : ℚ) ≤ 32767 := by exact_mod_cast hhi
  have h16 : int16_of_word 0x8000 = -32768 := by decide
  simp only [readShuntVoltage, shuntVoltage, h16, SHUNT_VOLTAGE_81_92mv_LSB,
    SHUNT_VOLTAGE_20_48mv_LSB]
  refine ⟨?_, ?_, ?_, ?_, ?_, ?_, ?_, ?_, ?_, ?_, ?_, ?_, ?_, ?_⟩
  · norm_num
    linarith
  · norm_num
    linarith
  · norm_num
    linarith
  · norm_num
    linarith
  · constructor
    · intro h
      have h3 : (c : ℚ) = -32768 := by
        norm_num at h
        linarith
      exact_mod_cast h3
    · intro h
      rw [h]
      norm_num
  · constructor
    · intro h
      have h3 : (c : ℚ) = -32768 := by
        norm_num at h
        linarith
      exact_mod_cast h3
    · intro h
      rw [h]
      norm_num
  · norm_num
  · norm_num
  · intro h
    norm_num at h
    linarith
  · intro h
    norm_num at h
    linarith
  · norm_num
  · norm_num
  · norm_num
  · norm_num

/-- Witness for C20: the most negative code. -/
theorem shuntVoltage_full_scale_witness :
    (-32768 : Int) ≤ -32768 ∧ ((-32768 : Int) ≤ 32767)
    ∧ (shuntVoltage .RANGE_81_92mV (-32768) = -81.92 ↔ (-32768 : Int) = -32768) :=
  ⟨by decide, by decide,
    (shuntVoltage_full_scale (-32768) (by decide) (by decide)).2.2.2.2.1⟩

end INA236
